import Mathlib

/-!
Verification of the Turn Metrics Engine of SkillIssue.ai
(`src/agents/metric_calculator/metrics.py` and `utils.py`).

Modelling conventions (shallow embedding):

* Python strings are Lean `String`s; all lexical analysis is done over
  `String.data : List Char`.  The lexical classifiers of `utils.py` are
  case-insensitive regular expressions built from alternations of literal
  phrases with `\b` anchors on both sides; they are embedded here by an
  executable matcher over ASCII-lowered character lists that reproduces
  the CPython scanning semantics (leftmost match, alternatives tried in
  source order, non-overlapping `findall`, limited backtracking where an
  optional group is followed by `\b`).  Word characters are modelled as
  ASCII `[A-Za-z0-9_]` (the inputs of this development are ASCII).
* Python floats are modelled as `ℚ`; `round(x, 4)` is modelled exactly as
  rounding to 4 decimal places with ties to even (`round4`).  NaN and the
  infinities are not modelled.
* The sentence-transformer embedding backend is an external collaborator;
  it is modelled as an abstract `EmbeddingProvider` exposing the cosine of
  the embeddings of two texts, bounded in `[-1, 1]` (the code L2-normalises
  vectors, so the mathematical cosine obeys the Cauchy-Schwarz bound).
* The LLM critic (`_llm_critique`) either returns the raw response text of
  the judge or `None` (no credential / call failed — every exception is
  caught inside it); it is modelled as a function
  `judge : String → String → Option String` applied to the exact
  system/user prompt pair the code builds.  Totality of the Lean model
  reflects the fact that the code never lets an exception escape the
  LLM-judged metric path.
* `json.loads` is modelled by an executable JSON parser over `ℚ` numbers.
-/

/- The Batteries rational-number operations are marked irreducible, which
blocks `decide`-style evaluation of concrete scores; restore the default
transparency so that concrete rational computations reduce. -/
set_option allowUnsafeReducibility true in
attribute [semireducible] Rat.add Rat.mul Rat.sub Rat.inv Rat.div Rat.ofScientific

set_option maxRecDepth 100000

namespace SkillIssue

/-! ## Characters, tokens and sentences -/

/-- ASCII lower-casing, as applied by `str.lower()` / `re.I` on the ASCII
inputs considered here. -/
def asciiLower (c : Char) : Char :=
  if ('A' ≤ c ∧ c ≤ 'Z') then Char.ofNat (c.toNat + 32) else c

/-- ASCII upper-casing, as applied by `str.upper()` in `_history_text`. -/
def asciiUpper (c : Char) : Char :=
  if ('a' ≤ c ∧ c ≤ 'z') then Char.ofNat (c.toNat - 32) else c

/-- Word characters of the regex class `\w`, restricted to ASCII. -/
def isWordChar (c : Char) : Bool :=
  ('a' ≤ c ∧ c ≤ 'z') ∨ ('A' ≤ c ∧ c ≤ 'Z') ∨ ('0' ≤ c ∧ c ≤ '9') ∨ c = '_'

/-- Word-character test on an optional character; outside the string counts
as a non-word position (regex `\b` at the edges). -/
def isWordOpt : Option Char → Bool
  | none => false
  | some c => isWordChar c

/-- Lower-case a character list. -/
def lowerData (cs : List Char) : List Char := cs.map asciiLower

/-- Characters treated as whitespace by `str.strip()`. -/
def pyIsSpace (c : Char) : Bool :=
  c = ' ' ∨ c = '\t' ∨ c = '\n' ∨ c = '\x0d' ∨ c = '\x0b' ∨ c = '\x0c'

/-- `str.strip()` on a character list. -/
def stripData (cs : List Char) : List Char :=
  ((cs.dropWhile pyIsSpace).reverse.dropWhile pyIsSpace).reverse

/-- `str.strip()` on a string. -/
def pyStrip (s : String) : String := ⟨stripData s.data⟩

/-- Counts maximal runs of word characters: `len(re.findall(r'\b\w+\b', s))`.
The flag records whether the previous character was a word character. -/
def wordRunCount : List Char → Bool → Nat
  | [], _ => 0
  | c :: rest, inWord =>
    if isWordChar c then
      (if inWord then 0 else 1) + wordRunCount rest true
    else
      wordRunCount rest false

/-- Number of word tokens of a string. -/
def wordTotal (s : String) : Nat := wordRunCount s.data false

/-- Sentence terminator class `[.!?]` of `re.split(r'[.!?]+', s)`. -/
def isSentSep (c : Char) : Bool := c = '.' ∨ c = '!' ∨ c = '?'

/-- `re.split(r'[.!?]+', s)`: split at each maximal run of terminators,
keeping empty pieces (the Python call returns them).  Fuel-driven so the
definition reduces by `rfl`/`decide`; fuel `cs.length + 1` always suffices
because each step consumes at least one character. -/
def splitSentAux : Nat → List Char → List (List Char)
  | 0, _ => [[]]
  | _ + 1, [] => [[]]
  | fuel + 1, c :: rest =>
    if isSentSep c then
      [] :: splitSentAux fuel (rest.dropWhile isSentSep)
    else
      match splitSentAux fuel rest with
      | [] => [[c]]
      | p :: ps => (c :: p) :: ps

/-- Raw pieces of `re.split(r'[.!?]+', s)` (empties included). -/
def splitPieces (s : String) : List (List Char) :=
  splitSentAux (s.data.length + 1) s.data

/-- `[s.strip() for s in re.split(r'[.!?]+', text) if s.strip()]`. -/
def sentencesOf (s : String) : List String :=
  ((splitPieces s).map stripData).filterMap
    (fun p => if p.isEmpty then none else some ⟨p⟩)

/-! ## Literal-phrase matcher with word boundaries

Every lexical classifier in `utils.py` has the shape
`\b(alt₁|alt₂|…)\b` with `re.I`, where each alternative is a literal
phrase, except for two characters of `_TECH_RE` (`.` in `github.actions`
matches any non-newline character) and the numeric patterns, which are
treated separately.  A pattern element is a literal character or the
any-character wildcard. -/

inductive PElem where
  | lit (c : Char)
  | wild
deriving DecidableEq

/-- Does a pattern element match a character (`.` never matches a newline)? -/
def pelemMatch : PElem → Char → Bool
  | .lit d, c => c = d
  | .wild, c => c ≠ '\n'

/-- A phrase built from a literal (lower-case) string. -/
def lit (s : String) : List PElem := s.data.map PElem.lit

/-- Does a phrase match the text starting at the head of `cs`? -/
def phraseAt : List PElem → List Char → Bool
  | [], _ => true
  | _ :: _, [] => false
  | p :: ps, c :: cs => pelemMatch p c && phraseAt ps cs

/-- Regex `\b` at position `i` of `text`: exactly one of the two adjacent
characters is a word character (positions outside the text are non-word). -/
def bdryAt (text : List Char) (i : Nat) : Bool :=
  isWordOpt (if i = 0 then none else (text.drop (i - 1)).head?)
    != isWordOpt ((text.drop i).head?)

/-- Does some alternative of `alts` match at position `i` of `text`, with
`\b` holding at both ends?  This is `re.search` semantics restricted to one
position (alternatives are tried in order, but for presence only existence
matters). -/
def matchAtPos (alts : List (List PElem)) (text : List Char) (i : Nat) : Bool :=
  alts.any fun a =>
    !a.isEmpty && phraseAt a (text.drop i) && bdryAt text i && bdryAt text (i + a.length)

/-- `bool(pattern.search(text))` for an alternation-of-phrases pattern:
a match exists at some position.  `text` must already be lower-cased. -/
def hasMatch (alts : List (List PElem)) (text : List Char) : Bool :=
  (List.range text.length).any (matchAtPos alts text)

/-- First alternative matching at position `i` with both boundaries, in the
source order of the alternation — the backtracking order CPython uses when
the trailing `\b` rejects an earlier alternative. -/
def firstAltAt (alts : List (List PElem)) (text : List Char) (i : Nat) :
    Option (List PElem) :=
  alts.find? fun a =>
    !a.isEmpty && phraseAt a (text.drop i) && bdryAt text i && bdryAt text (i + a.length)

/-- Generic non-overlapping scanner: `step i` returns a matched value and a
positive match length, or `none`.  Mirrors `re.findall`: scan positions left
to right, on a match continue right after it.  Fuel-driven (structural) so
that concrete evaluations reduce; fuel `text.length + 1` suffices because
every step advances the position by at least one. -/
def scanAux {α : Type} (step : Nat → Option (α × Nat)) : Nat → Nat → List α
  | 0, _ => []
  | fuel + 1, i =>
    match step i with
    | some (a, len) => a :: scanAux step fuel (i + max len 1)
    | none => scanAux step fuel (i + 1)

/-- `pattern.findall(text)` for an alternation-of-phrases pattern, returning
the matched character windows (`text` already lower-cased). -/
def phraseFindall (alts : List (List PElem)) (text : List Char) : List (List Char) :=
  scanAux
    (fun i =>
      if i < text.length then
        (firstAltAt alts text i).map fun a => ((text.drop i).take a.length, a.length)
      else none)
    (text.length + 1) 0

/-- `len(pattern.findall(s))` on a raw string (the pattern carries `re.I`,
so the text is lower-cased first). -/
def countPhrases (alts : List (List PElem)) (s : String) : Nat :=
  (phraseFindall alts (lowerData s.data)).length

/-- Matched strings of `pattern.findall(s)`, lower-cased (as
`[t.lower() for t in _TECH_RE.findall(answer)]` does). -/
def phraseMatchStrings (alts : List (List PElem)) (s : String) : List String :=
  (phraseFindall alts (lowerData s.data)).map fun cs => ⟨cs⟩

/-! ## The fixed lexical pattern library of `utils.py`

Each definition transcribes the alternatives of the corresponding compiled
regex, in source order, lower-cased (all the patterns carry `re.I`). -/

/-- `_HEDGE_RE`. -/
def hedgeAlts : List (List PElem) :=
  [lit "maybe", lit "probably", lit "i think", lit "not sure", lit "possibly",
   lit "i believe", lit "might be", lit "could be", lit "i guess", lit "sort of",
   lit "kind of", lit "i suppose", lit "i\x27m not certain"]

/-- `_CAUSAL_RE`. -/
def causalAlts : List (List PElem) :=
  [lit "because", lit "therefore", lit "thus", lit "hence", lit "as a result",
   lit "which caused", lit "leading to", lit "which meant", lit "so that",
   lit "in order to"]

/-- `_EXAMPLE_RE`. -/
def exampleAlts : List (List PElem) :=
  [lit "for example", lit "for instance", lit "such as", lit "specifically",
   lit "in particular", lit "to illustrate", lit "in my project",
   lit "we implemented", lit "concretely"]

/-- `_SHALLOW_RE`. -/
def shallowAlts : List (List PElem) :=
  [lit "i worked on it", lit "it was fine", lit "did some stuff",
   lit "helped with", lit "was involved in", lit "i know about",
   lit "i have experience", lit "i\x27ve done that", lit "we just used"]

/-- `_TECH_RE` (the `.` of `github.actions` is the wildcard). -/
def techAlts : List (List PElem) :=
  [lit "python", lit "java", lit "javascript", lit "typescript", lit "go",
   lit "rust", lit "c++", lit "kotlin", lit "swift", lit "scala",
   lit "docker", lit "kubernetes", lit "aws", lit "gcp", lit "azure",
   lit "terraform", lit "ansible", lit "helm",
   lit "react", lit "vue", lit "angular", lit "nextjs", lit "svelte",
   lit "fastapi", lit "django", lit "flask", lit "spring", lit "rails",
   lit "sql", lit "postgres", lit "mysql", lit "mongodb", lit "redis",
   lit "kafka", lit "rabbitmq", lit "elasticsearch", lit "cassandra",
   lit "tensorflow", lit "pytorch", lit "scikit", lit "huggingface",
   lit "spark", lit "airflow", lit "dbt",
   lit "graphql", lit "grpc", lit "rest", lit "websocket", lit "nginx",
   lit "linux", lit "git", lit "ci/cd", lit "jenkins",
   lit "github" ++ [PElem.wild] ++ lit "actions",
   lit "prometheus", lit "grafana", lit "datadog", lit "sentry",
   lit "opentelemetry"]

/-- The verbs of `_ACTION_RE` (`\b(i (built|…|scaled))\b`). -/
def actionVerbs : List String :=
  ["built", "designed", "led", "created", "implemented", "deployed",
   "developed", "wrote", "refactored", "migrated", "optimised", "introduced",
   "reduced", "automated", "coordinated", "negotiated", "owned", "drove",
   "shipped", "launched", "established", "mentored", "scaled"]

/-- `_ACTION_RE`, expanded to the equivalent two-word phrases. -/
def actionAlts : List (List PElem) :=
  actionVerbs.map fun v => lit ("i " ++ v)

/-- `_PASSIVE_RE`. -/
def passiveAlts : List (List PElem) :=
  [lit "was done", lit "was built", lit "was implemented", lit "was developed",
   lit "were created", lit "it was decided", lit "things were set up",
   lit "stuff was"]

/-- `_STAR_RE["situation"]`. -/
def starSituationAlts : List (List PElem) :=
  [lit "project", lit "situation", lit "challenge", lit "context",
   lit "background", lit "scenario", lit "at the time",
   lit "problem we faced", lit "the issue was"]

/-- `_STAR_RE["task"]`. -/
def starTaskAlts : List (List PElem) :=
  [lit "task", lit "responsible for", lit "goal", lit "objective",
   lit "assigned to", lit "my role was", lit "i was asked to",
   lit "needed to", lit "requirement was"]

/-- `_STAR_RE["result"]`. -/
def starResultAlts : List (List PElem) :=
  [lit "result", lit "improved", lit "increased", lit "reduced",
   lit "achieved", lit "delivered", lit "outcome", lit "impact", lit "saved",
   lit "cut", lit "boosted", lit "grew", lit "shipped", lit "launched",
   lit "decreased", lit "eliminated"]

/-! ## Numeric token scanners -/

/-- Digit characters. -/
def isDigitChar (c : Char) : Bool := '0' ≤ c ∧ c ≤ '9'

/-- Value of a run of digit characters. -/
def digitsVal (ds : List Char) : Nat :=
  ds.foldl (fun acc c => acc * 10 + (c.toNat - '0'.toNat)) 0

/-- Rational value of `intpart.fracpart`. -/
def decimalVal (ip fp : List Char) : ℚ :=
  (digitsVal ip : ℚ) + (digitsVal fp : ℚ) / (10 : ℚ) ^ fp.length

/-- One match attempt of `\b(\d+(?:\.\d+)?)\b` at position `i`: greedy
digits, then the optional fraction, backtracking to the fraction-less
alternative when the trailing `\b` fails (CPython tries the longer option
first).  Returns the numeric value and the match length. -/
def plainNumAt (text : List Char) (i : Nat) : Option (ℚ × Nat) :=
  let rest := text.drop i
  let ip := rest.takeWhile isDigitChar
  if ip.isEmpty || !bdryAt text i then none
  else
    let afterInt := rest.drop ip.length
    let fp :=
      match afterInt with
      | '.' :: tl => tl.takeWhile isDigitChar
      | _ => []
    let withFrac := !fp.isEmpty && bdryAt text (i + ip.length + 1 + fp.length)
    if withFrac then some (decimalVal ip fp, ip.length + 1 + fp.length)
    else if bdryAt text (i + ip.length) then some ((digitsVal ip : ℚ), ip.length)
    else none

/-- `re.findall(r"\b(\d+(?:\.\d+)?)\b", raw)` as rational values (every
matched token is a valid Python float literal). -/
def plainNumbers (s : String) : List ℚ :=
  scanAux (plainNumAt s.data) (s.data.length + 1) 0

/-- The unit suffixes of the number pattern of `specificity_score`,
`\b\d+(?:\.\d+)?(?:%|x|ms|gb|mb|k|m)?\b`, in source order. -/
def ssUnits : List (List Char) :=
  ["%".data, "x".data, "ms".data, "gb".data, "mb".data, "k".data, "m".data]

/-- One match attempt of the `specificity_score` number pattern at `i`:
greedy digits, optional fraction, optional unit, each optional part
backtracked to the empty alternative when the trailing `\b` fails. -/
def ssNumAt (text : List Char) (i : Nat) : Option (Nat × Nat) :=
  let rest := text.drop i
  let ip := rest.takeWhile isDigitChar
  if ip.isEmpty || !bdryAt text i then none
  else
    let afterInt := rest.drop ip.length
    let fp :=
      match afterInt with
      | '.' :: tl => tl.takeWhile isDigitChar
      | _ => []
    let numLens := if fp.isEmpty then [ip.length] else [ip.length + 1 + fp.length, ip.length]
    let cands := numLens.flatMap fun nl =>
      (ssUnits.filterMap fun u =>
        if phraseAt (u.map PElem.lit) (text.drop (i + nl)) then some (nl + u.length)
        else none) ++ [nl]
    match cands.find? (fun len => bdryAt text (i + len)) with
    | some len => some (1, len)
    | none => none

/-- `len(re.findall(r"\b\d+(?:\.\d+)?(?:%|x|ms|gb|mb|k|m)?\b", answer.lower()))`. -/
def ssNumberCount (s : String) : Nat :=
  (scanAux (ssNumAt (lowerData s.data)) (s.data.length + 1) 0).length

/-- The unit alternatives of `_QUANTITY_RE`
(`\b\d+\s*(%|x|times|ms|seconds|minutes|hours|gb|mb|tb|requests|users|percent|k|m)\b`),
in source order. -/
def quantityUnits : List (List Char) :=
  ["%".data, "x".data, "times".data, "ms".data, "seconds".data,
   "minutes".data, "hours".data, "gb".data, "mb".data, "tb".data,
   "requests".data, "users".data, "percent".data, "k".data, "m".data]

/-- Whitespace class `\s` (ASCII). -/
def isRegexSpace (c : Char) : Bool := pyIsSpace c

/-- One match attempt of `_QUANTITY_RE` at `i`: `\b`, greedy digits, greedy
whitespace, then the first unit alternative whose trailing `\b` holds (no
unit begins with a digit or a space, so the greedy runs never backtrack). -/
def quantityAt (text : List Char) (i : Nat) : Option (Nat × Nat) :=
  let rest := text.drop i
  let ds := rest.takeWhile isDigitChar
  if ds.isEmpty || !bdryAt text i then none
  else
    let ws := (rest.drop ds.length).takeWhile isRegexSpace
    let base := ds.length + ws.length
    let cand := quantityUnits.filterMap fun u =>
      if phraseAt (u.map PElem.lit) (text.drop (i + base)) &&
          bdryAt text (i + base + u.length) then
        some (base + u.length)
      else none
    match cand with
    | len :: _ => some (1, len)
    | [] => none

/-- `len(_QUANTITY_RE.findall(s))`. -/
def quantityCount (s : String) : Nat :=
  (scanAux (quantityAt (lowerData s.data)) (s.data.length + 1) 0).length

/-! ## Python rounding -/

/-- Round a rational to the nearest integer, ties to even (the rounding of
Python `round`). -/
def rndHalfEven (x : ℚ) : ℤ :=
  let f := ⌊x⌋
  let r := x - (f : ℚ)
  if r < 1 / 2 then f
  else if 1 / 2 < r then f + 1
  else if f % 2 = 0 then f else f + 1

/-- Python `round(x, 4)`. -/
def round4 (x : ℚ) : ℚ := (rndHalfEven (x * 10000) : ℚ) / 10000

/-! ## Turns and history aggregation (`utils.py`) -/

/-- One `{"role": …, "content": …}` chat turn. -/
structure Turn where
  role : String
  content : String
deriving DecidableEq

/-- Python truthiness of the `chat_history` argument: `None` and `[]` are
falsy, a non-empty list is truthy (`if chat_history:` / `if not history:`). -/
def histTruthy : Option (List Turn) → Bool
  | none => false
  | some l => !l.isEmpty

/-- `_prior_answers`: space-joined contents of the `assistant` turns
(empty string for `None` or `[]`). -/
def priorAnswers (history : Option (List Turn)) : String :=
  match history with
  | none => ""
  | some l =>
    String.intercalate " "
      ((l.filter (fun t => t.role = "assistant")).map Turn.content)

/-- `_prior_questions`: space-joined contents of the `user` turns. -/
def priorQuestions (history : Option (List Turn)) : String :=
  match history with
  | none => ""
  | some l =>
    String.intercalate " "
      ((l.filter (fun t => t.role = "user")).map Turn.content)

/-- `str.upper()` on a string. -/
def pyUpper (s : String) : String := ⟨s.data.map asciiUpper⟩

/-- `_history_text(history, last_n)`: the last `last_n` turns rendered as
`ROLE: content` lines (called with `last_n ≥ 1` only; `history[-n:]` is then
`drop (length - n)`). -/
def historyText (history : Option (List Turn)) (lastN : Nat) : String :=
  match history with
  | none => ""
  | some l =>
    String.intercalate "\n"
      ((l.drop (l.length - lastN)).map fun t => pyUpper t.role ++ ": " ++ t.content)

/-! ## The embedding provider (external collaborator)

`utils.py` wraps a sentence-transformer model: `embed` L2-normalises the
model output and `cosine` divides the dot product by the norms (`0.0` on a
zero norm), so the cosine of two embedded texts is a real number in
`[-1, 1]`.  The provider is abstracted as the induced map from the two
texts to that cosine, together with its bounds. -/

structure EmbeddingProvider where
  cos : String → String → ℚ
  cos_le_one : ∀ a b, cos a b ≤ 1
  neg_one_le_cos : ∀ a b, -1 ≤ cos a b

/-! ## The five local metric functions (`metrics.py`) -/

/-- `question_answer_relevance` (QAR). -/
def question_answer_relevance (E : EmbeddingProvider)
    (question answer : String) (chat_history : Option (List Turn)) : ℚ :=
  let direct := E.cos question answer
  let score :=
    if histTruthy chat_history then
      let ctx := priorAnswers chat_history ++ " " ++ priorQuestions chat_history
      let bridge := E.cos answer ctx
      0.75 * direct + 0.25 * bridge
    else direct
  round4 (min (max score 0) 1)

/-- `topical_depth_score` (TDS). -/
def topical_depth_score (E : EmbeddingProvider)
    (question answer : String) (chat_history : Option (List Turn)) : ℚ :=
  let total : ℚ := (max (wordTotal answer) 1 : Nat)
  let causalDensity := (countPhrases causalAlts answer : ℚ) / total
  let exampleDensity := (countPhrases exampleAlts answer : ℚ) / total
  let quantityDensity := (quantityCount answer : ℚ) / total
  let shallowHits := countPhrases shallowAlts answer
  let base := 0.35 * min (causalDensity * 25) 1 + 0.35 * min (exampleDensity * 25) 1
      + 0.30 * min (quantityDensity * 15) 1
  let base := max (base - (shallowHits : ℚ) * 0.12) 0
  let base :=
    if histTruthy chat_history then
      let prior := priorAnswers chat_history
      if pyStrip prior ≠ "" then
        let novelty := 1 - E.cos answer prior
        0.80 * base + 0.20 * novelty
      else base
    else base
  round4 (min base 1)

/-- `answer_completeness_score` (ACS). -/
def answer_completeness_score (E : EmbeddingProvider)
    (question answer : String) (chat_history : Option (List Turn)) : ℚ :=
  let sentences := sentencesOf answer
  if sentences.isEmpty then 0
  else
    let sims := sentences.map fun s => E.cos s question
    let onTopic := (sims.countP (fun x => decide ((0.10 : ℚ) < x)) : ℚ) / (sims.length : ℚ)
    let lengthScore := min ((wordTotal answer : ℚ) / 80) 1
    let score := 0.60 * onTopic + 0.40 * lengthScore
    let score :=
      if histTruthy chat_history then
        let prior := priorAnswers chat_history
        if pyStrip prior ≠ "" then
          let redundancy := E.cos answer prior
          score * (1 - 0.25 * redundancy)
        else score
      else score
    round4 (min (max score 0) 1)

/-- `specificity_score` (SS). -/
def specificity_score
    (question answer : String) (chat_history : Option (List Turn)) : ℚ :=
  let total : Nat := max (wordTotal answer) 1
  let numbers := ssNumberCount answer
  let tools := phraseMatchStrings techAlts answer
  let toolCount : ℚ :=
    if histTruthy chat_history then
      let priorTools := phraseMatchStrings techAlts (priorAnswers chat_history)
      let newTools := tools.filter fun t => decide (t ∉ priorTools)
      (newTools.length : ℚ) + 0.3 * ((tools.length : ℚ) - (newTools.length : ℚ))
    else (tools.length : ℚ)
  let toolScore := min (toolCount / max ((total : ℚ) * 0.08) 1) 1
  let numberScore := min ((numbers : ℚ) / max ((total : ℚ) * 0.05) 1) 1
  round4 (0.55 * toolScore + 0.45 * numberScore)

/-- `confidence_clarity_score` (CCS). -/
def confidence_clarity_score
    (question answer : String) (chat_history : Option (List Turn)) : ℚ :=
  let totalS : ℚ := (max (sentencesOf answer).length 1 : Nat)
  let hedgeRate := (countPhrases hedgeAlts answer : ℚ) / totalS
  let passiveRate := (countPhrases passiveAlts answer : ℚ) / totalS
  let actionRate := (countPhrases actionAlts answer : ℚ) / totalS
  let score := max (1 - hedgeRate * 0.25 - passiveRate * 0.15) 0
  let score := min (score + min (actionRate * 0.20) 0.30) 1
  let score :=
    if histTruthy chat_history then
      let prior := priorAnswers chat_history
      let priorS : ℚ := (max (splitPieces prior).length 1 : Nat)
      let priorHedgeRate := (countPhrases hedgeAlts prior : ℚ) / priorS
      score * (1 - 0.15 * priorHedgeRate)
    else score
  round4 (min (max score 0) 1)

/-! ## STAR (`star_score`) -/

/-- The result dict of `star_score`. -/
structure StarResult where
  STAR_turn : ℚ
  STAR_cumulative : ℚ
  components_turn : List (String × Bool)
deriving DecidableEq

/-- `_check(text)`: presence of each STAR component, in the key order of
`_STAR_RE` (the action component reuses `_ACTION_RE`). -/
def starCheck (text : String) : List (String × Bool) :=
  let t := lowerData text.data
  [("situation", hasMatch starSituationAlts t),
   ("task", hasMatch starTaskAlts t),
   ("action", hasMatch actionAlts t),
   ("result", hasMatch starResultAlts t)]

/-- `sum(components.values())`. -/
def countTrue (l : List (String × Bool)) : Nat := l.countP fun p => p.2

/-- `star_score`. -/
def star_score
    (question answer : String) (chat_history : Option (List Turn)) : StarResult :=
  let turnComponents := starCheck answer
  let turnScore := round4 ((countTrue turnComponents : ℚ) / 4)
  let cumComp :=
    if histTruthy chat_history then
      starCheck (priorAnswers chat_history ++ " " ++ answer)
    else turnComponents
  { STAR_turn := turnScore
    STAR_cumulative := round4 ((countTrue cumComp : ℚ) / 4)
    components_turn := turnComponents }

/-! ## JSON (`json.loads`) -/

/-- JSON values (numbers as `ℚ`; `NaN`/`Infinity` are not modelled). -/
inductive JValue where
  | jnull
  | jbool (b : Bool)
  | jnum (q : ℚ)
  | jstr (s : String)
  | jarr (xs : List JValue)
  | jobj (fields : List (String × JValue))

/-- JSON whitespace. -/
def isJsonWs (c : Char) : Bool := c = ' ' ∨ c = '\t' ∨ c = '\n' ∨ c = '\x0d'

/-- Skip JSON whitespace. -/
def skipWs (cs : List Char) : List Char := cs.dropWhile isJsonWs

/-- Hexadecimal digit value. -/
def hexVal (c : Char) : Option Nat :=
  if '0' ≤ c ∧ c ≤ '9' then some (c.toNat - '0'.toNat)
  else if 'a' ≤ c ∧ c ≤ 'f' then some (c.toNat - 'a'.toNat + 10)
  else if 'A' ≤ c ∧ c ≤ 'F' then some (c.toNat - 'A'.toNat + 10)
  else none

/-- Body of a JSON string literal (after the opening quote): returns the
decoded string and the rest after the closing quote.  Raw control
characters are rejected, standard escapes are decoded. -/
def parseStrAux : Nat → List Char → List Char → Option (String × List Char)
  | 0, _, _ => none
  | fuel + 1, acc, cs =>
    match cs with
    | [] => none
    | '"' :: rest => some (⟨acc.reverse⟩, rest)
    | '\\' :: e :: rest =>
      match e with
      | '"' => parseStrAux fuel ('"' :: acc) rest
      | '\\' => parseStrAux fuel ('\\' :: acc) rest
      | '/' => parseStrAux fuel ('/' :: acc) rest
      | 'b' => parseStrAux fuel ('\x08' :: acc) rest
      | 'f' => parseStrAux fuel ('\x0c' :: acc) rest
      | 'n' => parseStrAux fuel ('\n' :: acc) rest
      | 'r' => parseStrAux fuel ('\x0d' :: acc) rest
      | 't' => parseStrAux fuel ('\t' :: acc) rest
      | 'u' =>
        match rest with
        | h1 :: h2 :: h3 :: h4 :: rest2 =>
          match hexVal h1, hexVal h2, hexVal h3, hexVal h4 with
          | some a, some b, some c, some d =>
            parseStrAux fuel (Char.ofNat (((a * 16 + b) * 16 + c) * 16 + d) :: acc) rest2
          | _, _, _, _ => none
        | _ => none
      | _ => none
    | c :: rest =>
      if c.toNat < 32 then none else parseStrAux fuel (c :: acc) rest

/-- Exponent part of a JSON number (`e`/`E`, optional sign, digits);
returns exponent `0` when no exponent marker is present. -/
def parseExpPart (cs : List Char) : Option (ℤ × List Char) :=
  match cs with
  | c :: t =>
    if c = 'e' ∨ c = 'E' then
      let signed : ℤ × List Char :=
        match t with
        | '+' :: u => (1, u)
        | '-' :: u => (-1, u)
        | _ => (1, t)
      let ds := signed.2.takeWhile isDigitChar
      if ds.isEmpty then none
      else some (signed.1 * (digitsVal ds : ℤ), signed.2.drop ds.length)
    else some (0, cs)
  | [] => some (0, cs)

/-- JSON number literal (strict grammar: no leading `+`, no leading zeros,
a fraction needs at least one digit). -/
def parseJNum (cs : List Char) : Option (ℚ × List Char) :=
  let signed : ℚ × List Char :=
    match cs with
    | '-' :: t => (-1, t)
    | _ => (1, cs)
  let ip := signed.2.takeWhile isDigitChar
  if ip.isEmpty then none
  else if 1 < ip.length ∧ ip.headD '0' = '0' then none
  else
    let cs2 := signed.2.drop ip.length
    let frac : Option (List Char × List Char) :=
      match cs2 with
      | '.' :: t =>
        let ds := t.takeWhile isDigitChar
        if ds.isEmpty then none else some (ds, t.drop ds.length)
      | _ => some ([], cs2)
    match frac with
    | none => none
    | some (fp, cs3) =>
      match parseExpPart cs3 with
      | none => none
      | some (e, cs4) => some (signed.1 * decimalVal ip fp * (10 : ℚ) ^ e, cs4)

/-- Recursive-descent JSON value parser.  A container continues after a
comma by re-parsing the tail with the opening bracket re-attached, so the
whole parser is a single structural recursion on fuel; each recursive call
consumes at least one character net, so the fuel chosen in `jsonLoads`
always suffices. -/
def parseVal : Nat → List Char → Option (JValue × List Char)
  | 0, _ => none
  | fuel + 1, cs =>
    match skipWs cs with
    | 'n' :: 'u' :: 'l' :: 'l' :: rest => some (.jnull, rest)
    | 't' :: 'r' :: 'u' :: 'e' :: rest => some (.jbool true, rest)
    | 'f' :: 'a' :: 'l' :: 's' :: 'e' :: rest => some (.jbool false, rest)
    | '"' :: rest =>
      (parseStrAux (rest.length + 1) [] rest).map fun p => (.jstr p.1, p.2)
    | '[' :: rest =>
      match skipWs rest with
      | ']' :: r2 => some (.jarr [], r2)
      | _ =>
        match parseVal fuel rest with
        | none => none
        | some (v, r2) =>
          match skipWs r2 with
          | ']' :: r3 => some (.jarr [v], r3)
          | ',' :: r3 =>
            match skipWs r3 with
            | ']' :: _ => none
            | _ =>
              match parseVal fuel ('[' :: r3) with
              | some (.jarr xs, r4) => some (.jarr (v :: xs), r4)
              | _ => none
          | _ => none
    | '{' :: rest =>
      match skipWs rest with
      | '}' :: r2 => some (.jobj [], r2)
      | '"' :: r2 =>
        match parseStrAux (r2.length + 1) [] r2 with
        | none => none
        | some (k, r3) =>
          match skipWs r3 with
          | ':' :: r4 =>
            match parseVal fuel r4 with
            | none => none
            | some (v, r5) =>
              match skipWs r5 with
              | '}' :: r6 => some (.jobj [(k, v)], r6)
              | ',' :: r6 =>
                match skipWs r6 with
                | '"' :: _ =>
                  match parseVal fuel ('{' :: r6) with
                  | some (.jobj fs, r7) => some (.jobj ((k, v) :: fs), r7)
                  | _ => none
                | _ => none
              | _ => none
          | _ => none
      | _ => none
    | rest => (parseJNum rest).map fun p => (.jnum p.1, p.2)

/-- `json.loads`: parse one value and require only whitespace after it. -/
def jsonLoads (s : String) : Option JValue :=
  match parseVal (2 * s.data.length + 8) s.data with
  | some (v, rem) => if (skipWs rem).isEmpty then some v else none
  | none => none

/-- Python-dict field lookup for an object built by `json.loads`: with
duplicate keys the last occurrence wins. -/
def jlookup (fields : List (String × JValue)) (k : String) : Option JValue :=
  (fields.reverse.find? fun p => p.1 = k).map fun p => p.2

/-- `float(v)` on a decoded JSON value: numbers pass through, booleans
become 0/1, numeric strings are parsed (`parsePyFloatStr`); everything else
raises (`none`). -/
def parsePyFloatStr (s : String) : Option ℚ :=
  let cs := stripData s.data
  let signed : ℚ × List Char :=
    match cs with
    | '+' :: t => (1, t)
    | '-' :: t => (-1, t)
    | _ => (1, cs)
  let ip := signed.2.takeWhile isDigitChar
  let cs2 := signed.2.drop ip.length
  let frac : Option (List Char × List Char) :=
    match cs2 with
    | '.' :: t => some (t.takeWhile isDigitChar, t.dropWhile isDigitChar)
    | _ => some ([], cs2)
  match frac with
  | none => none
  | some (fp, cs3) =>
    if ip.isEmpty ∧ fp.isEmpty then none
    else
      match parseExpPart cs3 with
      | none => none
      | some (e, cs4) =>
        if cs4.isEmpty then some (signed.1 * decimalVal ip fp * (10 : ℚ) ^ e)
        else none

/-- `float(…)` applied to a JSON value. -/
def pyFloat : JValue → Option ℚ
  | .jnum q => some q
  | .jbool b => some (if b then 1 else 0)
  | .jstr s => parsePyFloatStr s
  | _ => none

/-- `re.search(r'\{.*\}', raw, re.S).group()`: the span from the first
opening brace to the last closing brace (the leftmost match start, then the
greedy `.*` with DOTALL reaching the last `}`). -/
def greedyBraceSpan (s : String) : Option String :=
  let cs := s.data
  match cs.findIdx? (fun c => c = '{') with
  | none => none
  | some i =>
    match cs.reverse.findIdx? (fun c => c = '}') with
    | none => none
    | some rj =>
      let j := cs.length - 1 - rj
      if i < j then some ⟨(cs.drop i).take (j - i + 1)⟩ else none

/-- The object fields obtained by `json.loads(re.search(r'\{.*\}', raw,
re.S).group())`, when every step succeeds. -/
def extractedObj (raw : String) : Option (List (String × JValue)) :=
  match greedyBraceSpan raw with
  | none => none
  | some block =>
    match jsonLoads block with
    | some (.jobj fs) => some fs
    | _ => none

/-- `float(obj[field])` of `_parse_llm_json` (with its default field
`"score"`): fails when extraction, parsing, the key lookup or the float
conversion fails. -/
def extractedScore (raw : String) : Option ℚ :=
  match extractedObj raw with
  | none => none
  | some fs =>
    match jlookup fs "score" with
    | none => none
    | some v => pyFloat v

/-- The fallback loop of `_parse_llm_json`: the first standalone number in
`[0, 10]` of the raw text, normalised; `-1.0` when there is none. -/
def fallbackNum (raw : String) : ℚ :=
  match (plainNumbers raw).find? (fun v => decide (0 ≤ v) && decide (v ≤ 10)) with
  | some v => round4 (if 1 < v then v / 10 else v)
  | none => -1

/-- `_parse_llm_json(raw)`. -/
def parse_llm_json (raw : String) : ℚ :=
  match extractedScore raw with
  | some v => round4 (if 1 < v then v / 10 else v)
  | none => fallbackNum raw

/-! ## The LLM-judged metrics -/

/-- The system prompt of `factual_accuracy_reasoning_quality`. -/
def farqSystem : String :=
  "You are an expert technical interviewer. Evaluate the factual accuracy and logical correctness of the answer. Are technical claims correct? Is the reasoning coherent and free of contradictions? Does the candidate show an accurate mental model? Respond ONLY with this JSON (no extra text): \x7b\"score\": <float 0.0-1.0>, \"reason\": \"<one sentence>\"\x7d"

/-- The user prompt of `factual_accuracy_reasoning_quality` (the f-string
with its history block). -/
def farqUser (question answer : String) (chat_history : Option (List Turn)) : String :=
  (if histTruthy chat_history then
    "\n\nConversation so far:\n" ++ historyText chat_history 4
  else "")
  ++ "\n\nQUESTION: " ++ question ++ "\nANSWER: " ++ answer

/-- `factual_accuracy_reasoning_quality` (FARQ), parametrised by the LLM
critic (`_llm_critique`), which returns the raw response text or `None`. -/
def factual_accuracy_reasoning_quality (judge : String → String → Option String)
    (question answer : String) (chat_history : Option (List Turn)) : ℚ :=
  match judge farqSystem (farqUser question answer chat_history) with
  | none => -1
  | some raw => parse_llm_json raw

/-- The system prompt of `red_flag_score`. -/
def rfdSystem : String :=
  "You are an experienced interviewer watching for warning signs. Identify any red flags: blaming teammates/management without personal responsibility, refusing to discuss a failure, contradicting something said earlier, obvious exaggeration or implausible claims, completely avoiding the question. Respond ONLY with this JSON: \x7b\"score\": <float 0.0-1.0 where 1.0 = zero red flags>, \"flags\": [<short flag descriptions or empty list>]\x7d"

/-- The user prompt of `red_flag_score`. -/
def rfdUser (question answer : String) (chat_history : Option (List Turn)) : String :=
  (if histTruthy chat_history then
    "\n\nFull conversation:\n" ++ historyText chat_history 999
  else "")
  ++ "\n\nQUESTION: " ++ question ++ "\nANSWER: " ++ answer

/-- The `try` block of `red_flag_score`: extract and parse the JSON object,
convert `obj.get("score", -1.0)` to float, and read `obj.get("flags", [])`
as-is.  `none` models the raised exception (search/parse/`float` failure). -/
def rfdTryParse (raw : String) : Option (ℚ × JValue) :=
  match extractedObj raw with
  | none => none
  | some fs =>
    match pyFloat ((jlookup fs "score").getD (JValue.jnum (-1))) with
    | none => none
    | some v => some (v, (jlookup fs "flags").getD (JValue.jarr []))

/-- `red_flag_score` as a function of the critic response: the score/flags
pair (`{"score": …, "flags": …}`). -/
def red_flag_result (resp : Option String) : ℚ × JValue :=
  match resp with
  | none => (-1, JValue.jarr [])
  | some raw =>
    match rfdTryParse raw with
    | some (v, fl) => (round4 (if 1 < v then v / 10 else v), fl)
    | none => (parse_llm_json raw, JValue.jarr [])

/-- `red_flag_score` (RFD). -/
def red_flag_score (judge : String → String → Option String)
    (question answer : String) (chat_history : Option (List Turn)) : ℚ × JValue :=
  red_flag_result (judge rfdSystem (rfdUser question answer chat_history))

/-! ## The master aggregator (`calculate_turn_metrics`) -/

/-- A metrics-dict value: a float, the STAR components dict, or a raw JSON
value (the `RFD_flags` entry). -/
inductive MVal where
  | num (q : ℚ)
  | comps (l : List (String × Bool))
  | jval (v : JValue)

/-- `calculate_turn_metrics`, returning the metrics dict as an ordered
association list (Python dicts preserve insertion order). -/
def calculate_turn_metrics (E : EmbeddingProvider)
    (judge : String → String → Option String)
    (question answer : String) (chat_history : Option (List Turn))
    (behavioral_phase : Bool) (run_llm_metrics : Bool) :
    List (String × MVal) :=
  [("QAR", MVal.num (question_answer_relevance E question answer chat_history)),
   ("TDS", MVal.num (topical_depth_score E question answer chat_history)),
   ("ACS", MVal.num (answer_completeness_score E question answer chat_history)),
   ("SS", MVal.num (specificity_score question answer chat_history)),
   ("CCS", MVal.num (confidence_clarity_score question answer chat_history))]
  ++ (if behavioral_phase then
      [("STAR_turn", MVal.num (star_score question answer chat_history).STAR_turn),
       ("STAR_cumulative", MVal.num (star_score question answer chat_history).STAR_cumulative),
       ("STAR_components", MVal.comps (star_score question answer chat_history).components_turn)]
    else [])
  ++ (if run_llm_metrics then
      [("FARQ", MVal.num (factual_accuracy_reasoning_quality judge question answer chat_history)),
       ("RFD", MVal.num (red_flag_score judge question answer chat_history).1),
       ("RFD_flags", MVal.jval (red_flag_score judge question answer chat_history).2)]
    else [])

/-- The key list of the metrics dict. -/
def metricKeys (m : List (String × MVal)) : List String := m.map fun p => p.1

/-- First value stored under a key. -/
def getVal (m : List (String × MVal)) (k : String) : Option MVal :=
  (m.find? fun p => p.1 = k).map fun p => p.2

/-- First numeric value stored under a key. -/
def getNum (m : List (String × MVal)) (k : String) : Option ℚ :=
  match getVal m k with
  | some (MVal.num q) => some q
  | _ => none

/-! ## Definitions taken from the words of the specification

These follow the spec text, not the source; they exist only to be compared
with the source-derived definitions above. -/

/-- Balanced-brace scan: starting on an opening brace, return the prefix up
to and including the matching closing brace at depth 0 (naive
brace-counting, the plain reading of a `{...}` block). -/
def braceBlockAux : Nat → List Char → Nat → List Char → Option (List Char)
  | 0, _, _, _ => none
  | _ + 1, [], _, _ => none
  | fuel + 1, c :: rest, depth, acc =>
    if c = '{' then braceBlockAux fuel rest (depth + 1) (c :: acc)
    else if c = '}' then
      if depth ≤ 1 then some ((c :: acc).reverse)
      else braceBlockAux fuel rest (depth - 1) (c :: acc)
    else braceBlockAux fuel rest depth (c :: acc)

/-- Modelled from the spec: "extract the first top-level `{...}` block from
the raw text" — the first opening brace together with its matching closing
brace. -/
def firstTopLevelBlock (s : String) : Option String :=
  match s.data.findIdx? (fun c => c = '{') with
  | none => none
  | some i =>
    (braceBlockAux (s.data.length + 1) (s.data.drop i) 0 []).map fun b => ⟨b⟩

/-- Modelled from the spec: the score-parsing contract of §4.5 and claim C4,
word for word — extract the FIRST TOP-LEVEL `{...}` block, parse it, read
the numeric score field, normalise `>1` scores by 10; on failure scan the
raw text for a standalone number in `[0,10]`; otherwise `-1.0`.  Only the
block-extraction step differs from the source-derived `parse_llm_json`. -/
def parse_llm_json_claimed (raw : String) : ℚ :=
  let score : Option ℚ :=
    match firstTopLevelBlock raw with
    | none => none
    | some block =>
      match jsonLoads block with
      | some (.jobj fs) =>
        match jlookup fs "score" with
        | none => none
        | some v => pyFloat v
      | _ => none
  match score with
  | some v => round4 (if 1 < v then v / 10 else v)
  | none => fallbackNum raw

/-! ## Concrete collaborators for witnesses and counterexamples -/

/-- A degenerate embedding provider whose cosine is constantly `0`. -/
def cosZero : EmbeddingProvider :=
  ⟨fun _ _ => 0, fun _ _ => by norm_num, fun _ _ => by norm_num⟩

/-- The unavailable LLM critic: no credential, every call yields `None`. -/
def judgeUnavailable : String → String → Option String := fun _ _ => none

/-- A judge answering every prompt with a 0–100-scale score. -/
def judgeScore50 : String → String → Option String :=
  fun _ _ => some "\x7b\"score\": 50\x7d"

/-- Is a decoded flags value the empty list? -/
def isEmptyFlags : JValue → Bool
  | .jarr [] => true
  | _ => false

/-- The judge-response constraint under which FARQ stays bounded: whenever
the response yields a parsed JSON score, that score lies in `[0, 10]`. -/
def FarqRespOK (resp : Option String) : Prop :=
  ∀ raw, resp = some raw → ∀ v, extractedScore raw = some v → 0 ≤ v ∧ v ≤ 10

/-- The judge-response constraint under which RFD stays bounded: whenever
the response yields a parsed score/flags pair, the score lies in `[0, 10]`
or is the defaulted `-1`. -/
def RfdRespOK (resp : Option String) : Prop :=
  ∀ raw, resp = some raw → ∀ v fl, rfdTryParse raw = some (v, fl) →
    (0 ≤ v ∧ v ≤ 10) ∨ v = -1

/-- The hedging-scenario answer of spec §8. -/
def hedgingAnswer : String :=
  "Maybe I have. I think I might have been involved in something like that. I\x27m not certain."

/-! ## Helper lemmas: rounding -/

theorem rndHalfEven_le (x : ℚ) : (rndHalfEven x : ℚ) ≤ x + 1 / 2 := by
  have h1 : (⌊x⌋ : ℚ) ≤ x := Int.floor_le x
  have h2 : x < ⌊x⌋ + 1 := Int.lt_floor_add_one x
  unfold rndHalfEven
  dsimp only
  split_ifs with hlt hgt hev <;> push_cast <;> linarith

theorem le_rndHalfEven (x : ℚ) : x - 1 / 2 ≤ (rndHalfEven x : ℚ) := by
  have h1 : (⌊x⌋ : ℚ) ≤ x := Int.floor_le x
  have h2 : x < ⌊x⌋ + 1 := Int.lt_floor_add_one x
  unfold rndHalfEven
  dsimp only
  split_ifs with hlt hgt hev <;> push_cast <;> linarith

theorem rndHalfEven_mono {x y : ℚ} (h : x ≤ y) : rndHalfEven x ≤ rndHalfEven y := by
  by_contra hc
  push_neg at hc
  have h1 : rndHalfEven y + 1 ≤ rndHalfEven x := hc
  have h2 := rndHalfEven_le x
  have h3 := le_rndHalfEven y
  have h4 : (rndHalfEven y : ℚ) + 1 ≤ (rndHalfEven x : ℚ) := by exact_mod_cast h1
  have hxy : y ≤ x := by linarith
  have heq : x = y := le_antisymm h hxy
  subst heq
  omega

theorem rndHalfEven_intCast (k : ℤ) : rndHalfEven (k : ℚ) = k := by
  unfold rndHalfEven
  dsimp only
  have h0 : ⌊(k : ℚ)⌋ = k := Int.floor_intCast k
  rw [h0]
  norm_num

theorem round4_mono {x y : ℚ} (h : x ≤ y) : round4 x ≤ round4 y := by
  unfold round4
  have hm : rndHalfEven (x * 10000) ≤ rndHalfEven (y * 10000) :=
    rndHalfEven_mono (by nlinarith)
  have : (rndHalfEven (x * 10000) : ℚ) ≤ (rndHalfEven (y * 10000) : ℚ) := by
    exact_mod_cast hm
  linarith

theorem round4_intCast (k : ℤ) : round4 (k : ℚ) = k := by
  unfold round4
  have : (k : ℚ) * 10000 = ((k * 10000 : ℤ) : ℚ) := by push_cast; ring
  rw [this, rndHalfEven_intCast]
  push_cast
  field_simp

theorem round4_zero : round4 0 = 0 := by
  simpa using round4_intCast 0

theorem round4_one : round4 1 = 1 := by
  simpa using round4_intCast 1

theorem round4_neg_one : round4 (-1) = -1 := by
  simpa using round4_intCast (-1)

theorem round4_mem_Icc {x : ℚ} (h0 : 0 ≤ x) (h1 : x ≤ 1) :
    0 ≤ round4 x ∧ round4 x ≤ 1 := by
  constructor
  · have := round4_mono h0
    simpa [round4_zero] using this
  · have := round4_mono h1
    simpa [round4_one] using this

theorem round4_clamp01_mem (x : ℚ) :
    0 ≤ round4 (min (max x 0) 1) ∧ round4 (min (max x 0) 1) ≤ 1 :=
  round4_mem_Icc (le_min (le_max_right x 0) zero_le_one) (min_le_right _ 1)

theorem round4_lt_round4 {x y : ℚ} (h : x + 1 / 5000 ≤ y) : round4 x < round4 y := by
  unfold round4
  have hix := rndHalfEven_le (x * 10000)
  have hiy := le_rndHalfEven (y * 10000)
  have hlt : rndHalfEven (x * 10000) < rndHalfEven (y * 10000) := by
    by_contra hc
    push_neg at hc
    have : (rndHalfEven (y * 10000) : ℚ) ≤ (rndHalfEven (x * 10000) : ℚ) := by
      exact_mod_cast hc
    nlinarith
  have : (rndHalfEven (x * 10000) : ℚ) + 1 ≤ (rndHalfEven (y * 10000) : ℚ) := by
    exact_mod_cast hlt
  linarith

/-! ## Helper lemmas: match positions shift under prefixing -/

theorem drop_append_len (xs ys : List Char) (k : Nat) :
    (xs ++ ys).drop (xs.length + k) = ys.drop k := by
  induction xs with
  | nil => simp
  | cons x xs ih =>
    have h1 : (x :: xs).length + k = (xs.length + k) + 1 := by
      simp only [List.length_cons]
      omega
    rw [List.cons_append, h1, List.drop_succ_cons, ih]

theorem drop_sep_shift (p l : List Char) (k : Nat) :
    (p ++ ' ' :: l).drop (p.length + 1 + k) = l.drop k := by
  have h1 : p ++ ' ' :: l = (p ++ [' ']) ++ l := by simp
  have h2 : p.length + 1 + k = (p ++ [' ']).length + k := by simp
  rw [h1, h2, drop_append_len]

theorem drop_sep_sep (p l : List Char) :
    (p ++ ' ' :: l).drop p.length = ' ' :: l := by
  have := drop_append_len p (' ' :: l) 0
  simpa using this

theorem bdry_sep_shift (p l : List Char) (k : Nat) :
    bdryAt (p ++ ' ' :: l) (p.length + 1 + k) = bdryAt l k := by
  unfold bdryAt
  cases k with
  | zero =>
    have hne : p.length + 1 + 0 ≠ 0 := by omega
    have hidx : p.length + 1 + 0 - 1 = p.length := by omega
    rw [if_neg hne, hidx, drop_sep_sep, drop_sep_shift p l 0]
    simp [isWordOpt, isWordChar]
  | succ k =>
    have hne : p.length + 1 + (k + 1) ≠ 0 := by omega
    have hne2 : k + 1 ≠ 0 := by omega
    have hidx : p.length + 1 + (k + 1) - 1 = p.length + 1 + k := by omega
    rw [if_neg hne, if_neg hne2, hidx, drop_sep_shift p l k,
      drop_sep_shift p l (k + 1)]
    simp

theorem matchAtPos_sep_shift (alts : List (List PElem)) (p l : List Char)
    (i : Nat) (h : matchAtPos alts l i = true) :
    matchAtPos alts (p ++ ' ' :: l) (p.length + 1 + i) = true := by
  simp only [matchAtPos, List.any_eq_true, Bool.and_eq_true] at h ⊢
  obtain ⟨a, ha, ⟨⟨hne, hph⟩, hb1⟩, hb2⟩ := h
  refine ⟨a, ha, ⟨⟨hne, ?_⟩, ?_⟩, ?_⟩
  · rw [drop_sep_shift p l i]
    exact hph
  · rw [bdry_sep_shift p l i]
    exact hb1
  · have harith : p.length + 1 + i + a.length = p.length + 1 + (i + a.length) := by
      omega
    rw [harith, bdry_sep_shift p l (i + a.length)]
    exact hb2

theorem hasMatch_sep_mono (alts : List (List PElem)) (p l : List Char)
    (h : hasMatch alts l = true) : hasMatch alts (p ++ ' ' :: l) = true := by
  simp only [hasMatch, List.any_eq_true, List.mem_range] at h ⊢
  obtain ⟨i, hi, hm⟩ := h
  refine ⟨p.length + 1 + i, ?_, matchAtPos_sep_shift alts p l i hm⟩
  simp only [List.length_append, List.length_cons]
  omega

theorem lowerData_merge (pa a : String) :
    lowerData ((pa ++ " " ++ a).data) =
      lowerData pa.data ++ ' ' :: lowerData a.data := by
  have h1 : (pa ++ " " ++ a).data = (pa.data ++ [' ']) ++ a.data := by
    simp [String.data_append]
  rw [h1]
  simp only [lowerData, List.map_append]
  have h2 : ([' '].map asciiLower) = [' '] := by rfl
  simp [h2]

theorem hasMatch_merge_mono (alts : List (List PElem)) (pa a : String)
    (h : hasMatch alts (lowerData a.data) = true) :
    hasMatch alts (lowerData ((pa ++ " " ++ a).data)) = true := by
  rw [lowerData_merge]
  exact hasMatch_sep_mono alts (lowerData pa.data) (lowerData a.data) h

theorem boolToNat_mono {b c : Bool} (h : b = true → c = true) :
    b.toNat ≤ c.toNat := by
  cases b with
  | false => cases c <;> simp
  | true => simp [h rfl]

theorem countTrue_quad (s1 s2 s3 s4 : String) (b1 b2 b3 b4 : Bool) :
    countTrue [(s1, b1), (s2, b2), (s3, b3), (s4, b4)] =
      b1.toNat + b2.toNat + b3.toNat + b4.toNat := by
  cases b1 <;> cases b2 <;> cases b3 <;> cases b4 <;> rfl

theorem countTrue_starCheck_mono (pa a : String) :
    countTrue (starCheck a) ≤ countTrue (starCheck (pa ++ " " ++ a)) := by
  unfold starCheck
  rw [countTrue_quad, countTrue_quad]
  have h1 := boolToNat_mono (hasMatch_merge_mono starSituationAlts pa a)
  have h2 := boolToNat_mono (hasMatch_merge_mono starTaskAlts pa a)
  have h3 := boolToNat_mono (hasMatch_merge_mono actionAlts pa a)
  have h4 := boolToNat_mono (hasMatch_merge_mono starResultAlts pa a)
  omega

theorem star_turn_le_cumulative (q a : String) (h : Option (List Turn)) :
    (star_score q a h).STAR_turn ≤ (star_score q a h).STAR_cumulative := by
  unfold star_score
  by_cases hh : histTruthy h
  · simp only [hh, if_true]
    apply round4_mono
    have hc := countTrue_starCheck_mono (priorAnswers h) a
    have : ((countTrue (starCheck a) : ℚ)) ≤
        (countTrue (starCheck (priorAnswers h ++ " " ++ a)) : ℚ) := by
      exact_mod_cast hc
    linarith
  · simp [hh]

/-! ## Helper lemmas: boundedness of the metric values -/

theorem round4_min_one_mem {x : ℚ} (hx : 0 ≤ x) :
    0 ≤ round4 (min x 1) ∧ round4 (min x 1) ≤ 1 :=
  round4_mem_Icc (le_min hx zero_le_one) (min_le_right x 1)

theorem qar_mem (E : EmbeddingProvider) (q a : String) (h : Option (List Turn)) :
    0 ≤ question_answer_relevance E q a h ∧ question_answer_relevance E q a h ≤ 1 := by
  unfold question_answer_relevance
  exact round4_clamp01_mem _

theorem tds_mem (E : EmbeddingProvider) (q a : String) (h : Option (List Turn)) :
    0 ≤ topical_depth_score E q a h ∧ topical_depth_score E q a h ≤ 1 := by
  unfold topical_depth_score
  dsimp only
  refine round4_min_one_mem ?_
  split_ifs with h1 h2
  · have hc := E.cos_le_one a (priorAnswers h)
    have hm : (0 : ℚ) ≤ max (0.35 * min ((countPhrases causalAlts a : ℚ) /
        (max (wordTotal a) 1 : Nat) * 25) 1 +
        0.35 * min ((countPhrases exampleAlts a : ℚ) /
        (max (wordTotal a) 1 : Nat) * 25) 1 +
        0.30 * min ((quantityCount a : ℚ) /
        (max (wordTotal a) 1 : Nat) * 15) 1 -
        (countPhrases shallowAlts a : ℚ) * 0.12) 0 := le_max_right _ _
    nlinarith
  · exact le_max_right _ _
  · exact le_max_right _ _

theorem acs_mem (E : EmbeddingProvider) (q a : String) (h : Option (List Turn)) :
    0 ≤ answer_completeness_score E q a h ∧ answer_completeness_score E q a h ≤ 1 := by
  unfold answer_completeness_score
  dsimp only
  by_cases hs : (sentencesOf a).isEmpty
  · rw [if_pos hs]
    exact ⟨le_refl 0, zero_le_one⟩
  · rw [if_neg (by simpa using hs)]
    exact round4_clamp01_mem _

theorem ss_core_mem {tc nums D1 D2 : ℚ} (htc : 0 ≤ tc) (hn : 0 ≤ nums)
    (hD1 : 1 ≤ D1) (hD2 : 1 ≤ D2) :
    0 ≤ round4 (0.55 * min (tc / D1) 1 + 0.45 * min (nums / D2) 1) ∧
      round4 (0.55 * min (tc / D1) 1 + 0.45 * min (nums / D2) 1) ≤ 1 := by
  have h1 : 0 ≤ min (tc / D1) 1 :=
    le_min (div_nonneg htc (by linarith)) zero_le_one
  have h2 : min (tc / D1) 1 ≤ 1 := min_le_right _ _
  have h3 : 0 ≤ min (nums / D2) 1 :=
    le_min (div_nonneg hn (by linarith)) zero_le_one
  have h4 : min (nums / D2) 1 ≤ 1 := min_le_right _ _
  exact round4_mem_Icc (by nlinarith) (by nlinarith)

theorem ss_mem (q a : String) (h : Option (List Turn)) :
    0 ≤ specificity_score q a h ∧ specificity_score q a h ≤ 1 := by
  unfold specificity_score
  dsimp only
  refine ss_core_mem ?_ ?_ (le_max_right _ _) (le_max_right _ _)
  · split_ifs with h1
    · have hle := List.length_filter_le
        (fun t => decide (t ∉ phraseMatchStrings techAlts (priorAnswers h)))
        (phraseMatchStrings techAlts a)
      have hc : ((phraseMatchStrings techAlts a).filter
          (fun t => decide (t ∉ phraseMatchStrings techAlts (priorAnswers h)))).length ≤
          (phraseMatchStrings techAlts a).length := hle
      have hcq : (((phraseMatchStrings techAlts a).filter
          (fun t => decide (t ∉ phraseMatchStrings techAlts (priorAnswers h)))).length : ℚ) ≤
          ((phraseMatchStrings techAlts a).length : ℚ) := by exact_mod_cast hc
      have hnn : (0 : ℚ) ≤ (((phraseMatchStrings techAlts a).filter
          (fun t => decide (t ∉ phraseMatchStrings techAlts (priorAnswers h)))).length : ℚ) := by
        positivity
      nlinarith
    · positivity
  · positivity

theorem ccs_mem (q a : String) (h : Option (List Turn)) :
    0 ≤ confidence_clarity_score q a h ∧ confidence_clarity_score q a h ≤ 1 := by
  unfold confidence_clarity_score
  exact round4_clamp01_mem _

theorem starCheck_countTrue_le (t : String) : countTrue (starCheck t) ≤ 4 := by
  have hle : countTrue (starCheck t) ≤ (starCheck t).length :=
    List.countP_le_length _
  have hlen : (starCheck t).length = 4 := rfl
  omega

theorem star_frac_mem {n : Nat} (hn : n ≤ 4) :
    0 ≤ round4 ((n : ℚ) / 4) ∧ round4 ((n : ℚ) / 4) ≤ 1 := by
  refine round4_mem_Icc (by positivity) ?_
  have : (n : ℚ) ≤ 4 := by exact_mod_cast hn
  linarith

theorem star_turn_mem (q a : String) (h : Option (List Turn)) :
    0 ≤ (star_score q a h).STAR_turn ∧ (star_score q a h).STAR_turn ≤ 1 := by
  unfold star_score
  exact star_frac_mem (starCheck_countTrue_le a)

theorem star_cum_mem (q a : String) (h : Option (List Turn)) :
    0 ≤ (star_score q a h).STAR_cumulative ∧ (star_score q a h).STAR_cumulative ≤ 1 := by
  unfold star_score
  dsimp only
  split_ifs with hh
  · exact star_frac_mem (starCheck_countTrue_le _)
  · exact star_frac_mem (starCheck_countTrue_le a)

/-! ## Helper lemmas: the judged metrics -/

theorem norm_mem {v : ℚ} (h0 : 0 ≤ v) (h10 : v ≤ 10) :
    0 ≤ round4 (if 1 < v then v / 10 else v) ∧
      round4 (if 1 < v then v / 10 else v) ≤ 1 := by
  split_ifs with hv
  · exact round4_mem_Icc (by positivity) (by linarith)
  · exact round4_mem_Icc h0 (by linarith)

theorem fallbackNum_mem (raw : String) :
    (0 ≤ fallbackNum raw ∧ fallbackNum raw ≤ 1) ∨ fallbackNum raw = -1 := by
  unfold fallbackNum
  cases hf : (plainNumbers raw).find? (fun v => decide (0 ≤ v) && decide (v ≤ 10)) with
  | none => exact Or.inr rfl
  | some v =>
    have hp := List.find?_some hf
    simp only [Bool.and_eq_true, decide_eq_true_eq] at hp
    exact Or.inl (norm_mem hp.1 hp.2)

theorem parse_llm_json_mem (raw : String)
    (h : ∀ v, extractedScore raw = some v → 0 ≤ v ∧ v ≤ 10) :
    (0 ≤ parse_llm_json raw ∧ parse_llm_json raw ≤ 1) ∨ parse_llm_json raw = -1 := by
  unfold parse_llm_json
  cases he : extractedScore raw with
  | none => exact fallbackNum_mem raw
  | some v => exact Or.inl (norm_mem (h v he).1 (h v he).2)

theorem farq_mem (judge : String → String → Option String)
    (q a : String) (h : Option (List Turn))
    (hok : FarqRespOK (judge farqSystem (farqUser q a h))) :
    (0 ≤ factual_accuracy_reasoning_quality judge q a h ∧
        factual_accuracy_reasoning_quality judge q a h ≤ 1) ∨
      factual_accuracy_reasoning_quality judge q a h = -1 := by
  unfold factual_accuracy_reasoning_quality
  cases hr : judge farqSystem (farqUser q a h) with
  | none => exact Or.inr rfl
  | some raw => exact parse_llm_json_mem raw (hok raw hr)

theorem rfd_none_score_none (raw : String) (h : rfdTryParse raw = none) :
    extractedScore raw = none := by
  unfold rfdTryParse at h
  unfold extractedScore
  cases he : extractedObj raw with
  | none => rfl
  | some fs =>
    rw [he] at h
    dsimp only at h ⊢
    cases hl : jlookup fs "score" with
    | none =>
      rw [hl] at h
    | some sv =>
      rw [hl] at h
      simp only [Option.getD] at h
      cases hp : pyFloat sv with
      | none => simp only [hl]; exact hp
      | some v => rw [hp] at h; simp at h

theorem red_flag_result_mem (resp : Option String) (hok : RfdRespOK resp) :
    (0 ≤ (red_flag_result resp).1 ∧ (red_flag_result resp).1 ≤ 1) ∨
      (red_flag_result resp).1 = -1 := by
  cases resp with
  | none => exact Or.inr rfl
  | some raw =>
    cases ht : rfdTryParse raw with
    | some p =>
      obtain ⟨v, fl⟩ := p
      have hred : (red_flag_result (some raw)).1 = round4 (if 1 < v then v / 10 else v) := by
        unfold red_flag_result
        dsimp only
        rw [ht]
      rw [hred]
      rcases hok raw rfl v fl ht with hin | hneg
      · exact Or.inl (norm_mem hin.1 hin.2)
      · right
        rw [hneg, if_neg (by norm_num)]
        exact round4_neg_one
    | none =>
      have hred : (red_flag_result (some raw)).1 = parse_llm_json raw := by
        unfold red_flag_result
        dsimp only
        rw [ht]
      rw [hred]
      have hsn := rfd_none_score_none raw ht
      refine parse_llm_json_mem raw fun v hv => ?_
      rw [hsn] at hv
      exact absurd hv (by simp)

/-! ## Claim theorems -/

/-- C2: when the LLM critic is unavailable (every call returns `None` —
no credential configured or the call raised and was caught),
`calculate_turn_metrics` with `run_llm_metrics = True` reports
`FARQ == -1.0`, `RFD == -1.0` and `RFD_flags == []`; the model is total,
mirroring that no exception escapes the LLM-judged metric path. -/
theorem c2_judge_unavailable (E : EmbeddingProvider) (q a : String)
    (h : Option (List Turn)) (bp : Bool) :
    getNum (calculate_turn_metrics E judgeUnavailable q a h bp true) "FARQ" = some (-1) ∧
    getNum (calculate_turn_metrics E judgeUnavailable q a h bp true) "RFD" = some (-1) ∧
    getVal (calculate_turn_metrics E judgeUnavailable q a h bp true) "RFD_flags" =
      some (MVal.jval (JValue.jarr [])) := by
  cases bp <;> exact ⟨rfl, rfl, rfl⟩

/-- C3: the metrics mapping always holds QAR, TDS, ACS, SS, CCS; the STAR
entries exactly when `behavioral_phase`; the FARQ/RFD entries exactly when
`run_llm_metrics`; and nothing else. -/
theorem c3_metric_keys (E : EmbeddingProvider)
    (judge : String → String → Option String) (q a : String)
    (h : Option (List Turn)) (bp rl : Bool) :
    metricKeys (calculate_turn_metrics E judge q a h bp rl) =
      ["QAR", "TDS", "ACS", "SS", "CCS"]
      ++ (if bp then ["STAR_turn", "STAR_cumulative", "STAR_components"] else [])
      ++ (if rl then ["FARQ", "RFD", "RFD_flags"] else []) ∧
    ("QAR" ∈ metricKeys (calculate_turn_metrics E judge q a h bp rl) ∧
     "TDS" ∈ metricKeys (calculate_turn_metrics E judge q a h bp rl) ∧
     "ACS" ∈ metricKeys (calculate_turn_metrics E judge q a h bp rl) ∧
     "SS" ∈ metricKeys (calculate_turn_metrics E judge q a h bp rl) ∧
     "CCS" ∈ metricKeys (calculate_turn_metrics E judge q a h bp rl)) ∧
    ("STAR_turn" ∈ metricKeys (calculate_turn_metrics E judge q a h bp rl) ↔ bp = true) ∧
    ("STAR_cumulative" ∈ metricKeys (calculate_turn_metrics E judge q a h bp rl) ↔ bp = true) ∧
    ("STAR_components" ∈ metricKeys (calculate_turn_metrics E judge q a h bp rl) ↔ bp = true) ∧
    ("FARQ" ∈ metricKeys (calculate_turn_metrics E judge q a h bp rl) ↔ rl = true) ∧
    ("RFD" ∈ metricKeys (calculate_turn_metrics E judge q a h bp rl) ↔ rl = true) ∧
    ("RFD_flags" ∈ metricKeys (calculate_turn_metrics E judge q a h bp rl) ↔ rl = true) := by
  have hk : metricKeys (calculate_turn_metrics E judge q a h bp rl) =
      ["QAR", "TDS", "ACS", "SS", "CCS"]
      ++ (if bp then ["STAR_turn", "STAR_cumulative", "STAR_components"] else [])
      ++ (if rl then ["FARQ", "RFD", "RFD_flags"] else []) := by
    cases bp <;> cases rl <;> rfl
  rw [hk]
  cases bp <;> cases rl <;> decide

/-- C5: every metric function and the aggregator give the same result for
`chat_history = None` and `chat_history = []` — both are falsy, all history
handling branches on truthiness, and the empty aggregates coincide. -/
theorem c5_history_base_case (E : EmbeddingProvider)
    (judge : String → String → Option String) (q a : String) (bp rl : Bool) :
    question_answer_relevance E q a none = question_answer_relevance E q a (some []) ∧
    topical_depth_score E q a none = topical_depth_score E q a (some []) ∧
    answer_completeness_score E q a none = answer_completeness_score E q a (some []) ∧
    specificity_score q a none = specificity_score q a (some []) ∧
    confidence_clarity_score q a none = confidence_clarity_score q a (some []) ∧
    star_score q a none = star_score q a (some []) ∧
    factual_accuracy_reasoning_quality judge q a none =
      factual_accuracy_reasoning_quality judge q a (some []) ∧
    red_flag_score judge q a none = red_flag_score judge q a (some []) ∧
    calculate_turn_metrics E judge q a none bp rl =
      calculate_turn_metrics E judge q a (some []) bp rl := by
  exact ⟨rfl, rfl, rfl, rfl, rfl, rfl, rfl, rfl, rfl⟩

/-- C6 counterexample (negation of the claim): there is NO input on which
`STAR_cumulative < STAR_turn` — the STAR check is presence-based and every
component found in the answer is also found in the prior-answers-plus-answer
merge, so the cumulative score never drops below the turn score. -/
theorem c6_star_counterexample :
    ¬ ∃ (q a : String) (h : Option (List Turn)),
      (star_score q a h).STAR_cumulative < (star_score q a h).STAR_turn := by
  rintro ⟨q, a, h, hlt⟩
  exact absurd (star_turn_le_cumulative q a h) (not_le.mpr hlt)

/-- C6 (amended): `STAR_cumulative >= STAR_turn` holds for every input,
and if all four STAR components are present in the current answer alone
then `STAR_turn == 1.0`. -/
theorem c6_star_amended (q a : String) (h : Option (List Turn)) :
    (star_score q a h).STAR_turn ≤ (star_score q a h).STAR_cumulative ∧
    (countTrue (starCheck a) = 4 → (star_score q a h).STAR_turn = 1) := by
  refine ⟨star_turn_le_cumulative q a h, fun h4 => ?_⟩
  unfold star_score
  dsimp only
  rw [h4]
  have h44 : ((4 : Nat) : ℚ) / 4 = 1 := by norm_num
  rw [h44, round4_one]

/-- Witness for C6 (amended): a fully structured STAR answer has all four
components in the current turn, so its `STAR_turn` is exactly 1. -/
theorem c6_star_witness :
    (star_score "q" "In the project I was responsible for the api. I implemented it. As a result we reduced latency." none).STAR_turn ≤
      (star_score "q" "In the project I was responsible for the api. I implemented it. As a result we reduced latency." none).STAR_cumulative ∧
    (star_score "q" "In the project I was responsible for the api. I implemented it. As a result we reduced latency." none).STAR_turn = 1 :=
  ⟨(c6_star_amended "q" "In the project I was responsible for the api. I implemented it. As a result we reduced latency." none).1,
   (c6_star_amended "q" "In the project I was responsible for the api. I implemented it. As a result we reduced latency." none).2 (by decide)⟩

/-- C8 counterexample: on the hedging-scenario answer of spec §8 the code
yields CCS = 0.75 (three hedges over three sentences cost 3 × 0.25 / 3),
which is not `< 0.3`. -/
theorem c8_hedging_scenario_counterexample :
    confidence_clarity_score "Have you ever led a project?" hedgingAnswer none = 0.75 ∧
    ¬(confidence_clarity_score "Have you ever led a project?" hedgingAnswer none < 0.3) := by
  constructor
  · decide
  · decide

/-- C8 (amended): for every question, the hedging-scenario answer scores
exactly CCS = 0.75 with empty history (the hedge penalty is
`0.25 × hedge_rate`, and the hedge rate here is 1 per sentence). -/
theorem c8_hedging_scenario_amended (q : String) :
    confidence_clarity_score q hedgingAnswer none = 0.75 := by
  rfl

/-- C10 counterexample: a parseable judge response carrying flags but no
score is normalised to the sentinel score `-1.0` while keeping its
non-empty flags list. -/
theorem c10_flags_counterexample :
    (red_flag_result (some "\x7b\"flags\": [\"blame-shifting\"]\x7d")).1 = -1 ∧
    isEmptyFlags (red_flag_result (some "\x7b\"flags\": [\"blame-shifting\"]\x7d")).2 = false := by
  constructor
  · decide
  · decide

/-- C10 (amended): the RFD flags list is empty whenever the sentinel comes
from an unavailable judge or from a response whose JSON cannot be parsed
into a score/flags pair; when the response does parse, the flags are
returned as-is and may be non-empty next to a `-1.0` score. -/
theorem c10_flags_amended (resp : Option String) :
    (resp = none → red_flag_result resp = (-1, JValue.jarr [])) ∧
    (∀ raw, resp = some raw → rfdTryParse raw = none →
      isEmptyFlags (red_flag_result resp).2 = true) ∧
    (∀ raw v fl, resp = some raw → rfdTryParse raw = some (v, fl) →
      (red_flag_result resp).2 = fl) := by
  refine ⟨?_, ?_, ?_⟩
  · rintro rfl
    rfl
  · rintro raw rfl htp
    unfold red_flag_result
    dsimp only
    rw [htp]
    rfl
  · rintro raw v fl rfl htp
    unfold red_flag_result
    dsimp only
    rw [htp]

/-- Witness for C10 (amended): an unparsable response and a flags-carrying
response, exercised through the amended theorem. -/
theorem c10_flags_witness :
    red_flag_result none = (-1, JValue.jarr []) ∧
    isEmptyFlags (red_flag_result (some "plain text")).2 = true :=
  ⟨(c10_flags_amended none).1 rfl,
   (c10_flags_amended (some "plain text")).2.1 "plain text" rfl rfl⟩

/-- C1 (amended): every numeric value of the metrics mapping lies in
`[0, 1]` or equals the sentinel `-1.0`, for every input — unconditionally
for the local metrics (QAR, TDS, ACS, SS, CCS, STAR), and for FARQ/RFD
under the contract that any numeric score parsed out of the judge response
lies on the 0–1 or 0–10 scale (in `[0, 10]`).  Without that contract a
judge score such as 50 escapes the range (see the counterexample). -/
theorem c1_boundedness_amended (E : EmbeddingProvider)
    (judge : String → String → Option String) (q a : String)
    (h : Option (List Turn)) (bp rl : Bool)
    (hF : FarqRespOK (judge farqSystem (farqUser q a h)))
    (hR : RfdRespOK (judge rfdSystem (rfdUser q a h))) :
    ∀ p ∈ calculate_turn_metrics E judge q a h bp rl, ∀ v : ℚ,
      p.2 = MVal.num v → (0 ≤ v ∧ v ≤ 1) ∨ v = -1 := by
  intro p hp v hv
  unfold calculate_turn_metrics at hp
  rcases List.mem_append.mp hp with hp1 | hllm
  rcases List.mem_append.mp hp1 with hbase | hstar
  · simp only [List.mem_cons, List.not_mem_nil, or_false] at hbase
    rcases hbase with rfl | rfl | rfl | rfl | rfl <;>
      simp only [MVal.num.injEq] at hv <;> subst hv
    · exact Or.inl (qar_mem E q a h)
    · exact Or.inl (tds_mem E q a h)
    · exact Or.inl (acs_mem E q a h)
    · exact Or.inl (ss_mem q a h)
    · exact Or.inl (ccs_mem q a h)
  · cases bp with
    | false => simp at hstar
    | true =>
      simp only [if_true] at hstar
      simp only [List.mem_cons, List.not_mem_nil, or_false] at hstar
      rcases hstar with rfl | rfl | rfl
      · simp only [MVal.num.injEq] at hv
        subst hv
        exact Or.inl (star_turn_mem q a h)
      · simp only [MVal.num.injEq] at hv
        subst hv
        exact Or.inl (star_cum_mem q a h)
      · simp at hv
  · cases rl with
    | false => simp at hllm
    | true =>
      simp only [if_true] at hllm
      simp only [List.mem_cons, List.not_mem_nil, or_false] at hllm
      rcases hllm with rfl | rfl | rfl
      · simp only [MVal.num.injEq] at hv
        subst hv
        exact farq_mem judge q a h hF
      · simp only [MVal.num.injEq] at hv
        subst hv
        exact red_flag_result_mem (judge rfdSystem (rfdUser q a h)) hR
      · simp at hv

/-- Witness for C1 (amended): the unavailable judge trivially satisfies
both response contracts, and the conclusion follows for a concrete turn. -/
theorem c1_boundedness_witness :
    FarqRespOK (judgeUnavailable farqSystem (farqUser "q" "a" none)) ∧
    RfdRespOK (judgeUnavailable rfdSystem (rfdUser "q" "a" none)) ∧
    (∀ p ∈ calculate_turn_metrics cosZero judgeUnavailable "q" "a" none true true,
      ∀ v : ℚ, p.2 = MVal.num v → (0 ≤ v ∧ v ≤ 1) ∨ v = -1) := by
  refine ⟨fun raw hr => absurd hr (by simp [judgeUnavailable]),
    fun raw hr => absurd hr (by simp [judgeUnavailable]), ?_⟩
  exact c1_boundedness_amended cosZero judgeUnavailable "q" "a" none true true
    (fun raw hr => absurd hr (by simp [judgeUnavailable]))
    (fun raw hr => absurd hr (by simp [judgeUnavailable]))

/-- C1 counterexample: a judge that answers `{"score": 50}` (a 0–100 scale)
drives FARQ to `5.0`, which is neither in `[0, 1]` nor the sentinel `-1.0`
— the `score/10 if score>1` normalisation is applied only once and the
JSON path has no range guard. -/
theorem c1_boundedness_counterexample :
    getNum (calculate_turn_metrics cosZero judgeScore50 "q" "a" none false true)
      "FARQ" = some 5 ∧
    ¬((0 ≤ (5 : ℚ) ∧ (5 : ℚ) ≤ 1) ∨ (5 : ℚ) = -1) := by
  constructor
  · decide
  · decide

/-- C4 counterexample: on `{"score": 20} {"score": 0.9}` the code extracts
the greedy span from the first `{` to the LAST `}` (which fails to parse)
and falls back to the number scan, returning `0.9`; the claimed
first-top-level-block algorithm would read the first block and return
`20 / 10 = 2.0`.  The two disagree, refuting the claim as stated. -/
theorem c4_parse_counterexample :
    parse_llm_json "\x7b\"score\": 20\x7d \x7b\"score\": 0.9\x7d" = 9 / 10 ∧
    parse_llm_json_claimed "\x7b\"score\": 20\x7d \x7b\"score\": 0.9\x7d" = 2 ∧
    parse_llm_json "\x7b\"score\": 20\x7d \x7b\"score\": 0.9\x7d" ≠
      parse_llm_json_claimed "\x7b\"score\": 20\x7d \x7b\"score\": 0.9\x7d" := by
  refine ⟨by decide, by decide, by decide⟩

/-- C4 (amended): the score parser extracts the span from the first `{` to
the last `}` (not the first top-level block), parses it as JSON and
float-converts the score field, dividing by 10 when the value exceeds 1;
when extraction, parsing, or reading the score fails, it scans the raw
text and normalises the first standalone number in `[0, 10]` the same way;
when no number can be recovered it returns `-1.0`. -/
theorem c4_parse_contract (raw : String) :
    (∀ v, extractedScore raw = some v →
      parse_llm_json raw = round4 (if 1 < v then v / 10 else v)) ∧
    (extractedScore raw = none → ∀ v,
      (plainNumbers raw).find? (fun w => decide (0 ≤ w) && decide (w ≤ 10)) = some v →
      parse_llm_json raw = round4 (if 1 < v then v / 10 else v)) ∧
    (extractedScore raw = none →
      (∀ w ∈ plainNumbers raw, ¬(0 ≤ w ∧ w ≤ 10)) → parse_llm_json raw = -1) := by
  refine ⟨?_, ?_, ?_⟩
  · intro v hv
    unfold parse_llm_json
    rw [hv]
  · intro hn v hf
    unfold parse_llm_json
    rw [hn]
    unfold fallbackNum
    rw [hf]
  · intro hn hall
    unfold parse_llm_json
    rw [hn]
    unfold fallbackNum
    have hnone : (plainNumbers raw).find?
        (fun w => decide (0 ≤ w) && decide (w ≤ 10)) = none := by
      rw [List.find?_eq_none]
      intro x hx
      simp only [Bool.and_eq_true, decide_eq_true_eq, not_and]
      intro h0 h10
      exact hall x hx ⟨h0, h10⟩
    rw [hnone]

/-- Witness for C4 (amended): a clean JSON response goes through the score
path, and a number-free unparsable text yields the sentinel. -/
theorem c4_parse_contract_witness :
    parse_llm_json "\x7b\"score\": 50\x7d" =
      round4 (if 1 < (50 : ℚ) then (50 : ℚ) / 10 else 50) ∧
    parse_llm_json "no json here" = -1 :=
  ⟨(c4_parse_contract "\x7b\"score\": 50\x7d").1 50 (by decide),
   (c4_parse_contract "no json here").2.2 (by decide) (by decide)⟩

theorem ccs_chain_mono {x y boost f : ℚ} (hxy : y ≤ x) (hb : 0 ≤ boost)
    (hist : Bool) :
    round4 (min (max (if hist then min (max y 0 + boost) 1 * f
        else min (max y 0 + boost) 1) 0) 1) ≤
      round4 (min (max (if hist then min (max x 0 + boost) 1 * f
        else min (max x 0 + boost) 1) 0) 1) := by
  have hS : min (max y 0 + boost) 1 ≤ min (max x 0 + boost) 1 :=
    min_le_min (add_le_add (max_le_max hxy le_rfl) le_rfl) le_rfl
  cases hist with
  | false =>
    simp only [Bool.false_eq_true, if_false]
    exact round4_mono (min_le_min (max_le_max hS le_rfl) le_rfl)
  | true =>
    simp only [if_true]
    rcases le_or_lt 0 f with hf | hf
    · exact round4_mono
        (min_le_min (max_le_max (mul_le_mul_of_nonneg_right hS hf) le_rfl) le_rfl)
    · have hy0 : 0 ≤ min (max y 0 + boost) 1 :=
        le_min (add_nonneg (le_max_right y 0) hb) zero_le_one
      have hx0 : 0 ≤ min (max x 0 + boost) 1 :=
        le_min (add_nonneg (le_max_right x 0) hb) zero_le_one
      have hy : min (max y 0 + boost) 1 * f ≤ 0 := by nlinarith
      have hx : min (max x 0 + boost) 1 * f ≤ 0 := by nlinarith
      rw [max_eq_right hy, max_eq_right hx]

/-- C7 counterexample: the action-verb boost saturates both scores at the
1.0 clamp — `"I built and I designed the system."` and the same answer with
a prepended hedge both score CCS = 1.0, so the strict inequality of the
claim fails. -/
theorem c7_hedging_counterexample :
    confidence_clarity_score "q" "Maybe I built and I designed the system." none = 1 ∧
    confidence_clarity_score "q" "I built and I designed the system." none = 1 ∧
    ¬(confidence_clarity_score "q" "Maybe I built and I designed the system." none <
      confidence_clarity_score "q" "I built and I designed the system." none) := by
  refine ⟨by decide, by decide, by decide⟩

/-- C7 (amended): adding hedge phrases never increases CCS — for two
answers with the same sentence count and the same passive and action-verb
counts, the one with at least as many hedge matches scores at most the
other; equality is possible when the score saturates at the 0/1 clamps. -/
theorem c7_hedging_amended (q a1 a2 : String) (h : Option (List Turn))
    (hh : countPhrases hedgeAlts a1 ≤ countPhrases hedgeAlts a2)
    (hs : (sentencesOf a1).length = (sentencesOf a2).length)
    (hpv : countPhrases passiveAlts a1 = countPhrases passiveAlts a2)
    (hac : countPhrases actionAlts a1 = countPhrases actionAlts a2) :
    confidence_clarity_score q a2 h ≤ confidence_clarity_score q a1 h := by
  unfold confidence_clarity_score
  dsimp only
  rw [hs, hpv, hac]
  have hT1 : (1 : ℚ) ≤ ((max (sentencesOf a2).length 1 : Nat) : ℚ) := by
    exact_mod_cast Nat.le_max_right (sentencesOf a2).length 1
  have hT0 : (0 : ℚ) < ((max (sentencesOf a2).length 1 : Nat) : ℚ) :=
    lt_of_lt_of_le one_pos hT1
  have hhr : (countPhrases hedgeAlts a1 : ℚ) /
        ((max (sentencesOf a2).length 1 : Nat) : ℚ) ≤
      (countPhrases hedgeAlts a2 : ℚ) /
        ((max (sentencesOf a2).length 1 : Nat) : ℚ) :=
    (div_le_div_right hT0).mpr (by exact_mod_cast hh)
  refine ccs_chain_mono (by nlinarith) ?_ (histTruthy h)
  exact le_min (by positivity) (by norm_num)

/-- Witness for C7 (amended): an assertive answer and the same answer with
one hedge added, with all the count hypotheses checked concretely. -/
theorem c7_hedging_witness :
    confidence_clarity_score "q" "Maybe I led the team." none ≤
      confidence_clarity_score "q" "I led the team." none :=
  c7_hedging_amended "q" "I led the team." "Maybe I led the team." none
    (by decide) (by decide) (by decide) (by decide)

/-- C9 counterexample: with history `["we used python"]`, the four-fold
repeat answers saturate the tool-score cap (`0.3 × 4 = 1.2` and `4` both
exceed the denominator `max(4 × 0.08, 1) = 1`), so SS is 0.55 for both the
repeated-term answer and the new-term answer — not strictly lower. -/
theorem c9_specificity_counterexample :
    specificity_score "q" "python python python python"
      (some [⟨"assistant", "we used python"⟩]) = 0.55 ∧
    specificity_score "q" "redis redis redis redis"
      (some [⟨"assistant", "we used python"⟩]) = 0.55 ∧
    ¬(specificity_score "q" "python python python python"
        (some [⟨"assistant", "we used python"⟩]) <
      specificity_score "q" "redis redis redis redis"
        (some [⟨"assistant", "we used python"⟩])) := by
  refine ⟨by decide, by decide, by decide⟩

/-- C9 (amended): with a non-empty history, an answer whose `k` technology
mentions all already occur in the prior answers scores strictly below an
answer of the same token count, number count and mention count whose
technology mentions are all new — provided the repeated-mention tool score
stays below the saturation cap by at least the rounding resolution
(`0.3k/D + 1/2000 ≤ min(k/D, 1)` for the shared denominator `D`). -/
theorem c9_specificity_amended (q aR aN : String) (h : Option (List Turn)) (k : Nat)
    (ht : histTruthy h = true)
    (hkR : (phraseMatchStrings techAlts aR).length = k)
    (hRmem : ∀ t ∈ phraseMatchStrings techAlts aR,
      t ∈ phraseMatchStrings techAlts (priorAnswers h))
    (hkN : (phraseMatchStrings techAlts aN).length = k)
    (hNmem : ∀ t ∈ phraseMatchStrings techAlts aN,
      t ∉ phraseMatchStrings techAlts (priorAnswers h))
    (hw : wordTotal aR = wordTotal aN)
    (hnum : ssNumberCount aR = ssNumberCount aN)
    (hgap : 0.3 * (k : ℚ) / max (((max (wordTotal aN) 1 : Nat) : ℚ) * 0.08) 1
        + 1 / 2000 ≤
      min ((k : ℚ) / max (((max (wordTotal aN) 1 : Nat) : ℚ) * 0.08) 1) 1) :
    specificity_score q aR h < specificity_score q aN h := by
  unfold specificity_score
  dsimp only
  simp only [if_pos ht]
  have hfR : (phraseMatchStrings techAlts aR).filter
      (fun t => decide (t ∉ phraseMatchStrings techAlts (priorAnswers h))) = [] := by
    rw [List.filter_eq_nil]
    intro t htm
    simp only [decide_eq_true_eq, Decidable.not_not]
    exact hRmem t htm
  have hfN : (phraseMatchStrings techAlts aN).filter
      (fun t => decide (t ∉ phraseMatchStrings techAlts (priorAnswers h))) =
      phraseMatchStrings techAlts aN := by
    rw [List.filter_eq_self]
    intro t htm
    simp only [decide_eq_true_eq]
    exact hNmem t htm
  rw [hfR, hfN, hw, hnum, hkR, hkN]
  simp only [List.length_nil, Nat.cast_zero]
  apply round4_lt_round4
  have hz1 : (0 : ℚ) + 0.3 * ((k : ℚ) - 0) = 0.3 * (k : ℚ) := by ring
  have hz2 : (k : ℚ) + 0.3 * ((k : ℚ) - (k : ℚ)) = (k : ℚ) := by ring
  rw [hz1, hz2]
  have hcap : 0.3 * (k : ℚ) / max (((max (wordTotal aN) 1 : Nat) : ℚ) * 0.08) 1 ≤ 1 := by
    have := min_le_right ((k : ℚ) /
      max (((max (wordTotal aN) 1 : Nat) : ℚ) * 0.08) 1) 1
    linarith
  rw [min_eq_left hcap]
  linarith

/-- Witness for C9 (amended): two six-word answers with two technology
mentions each — `python` twice (already in history) versus `redis` twice
(new) — score 0.33 < 0.55. -/
theorem c9_specificity_witness :
    specificity_score "q" "I used python and python daily"
        (some [⟨"assistant", "we used python"⟩]) <
      specificity_score "q" "I used redis and redis daily"
        (some [⟨"assistant", "we used python"⟩]) :=
  c9_specificity_amended "q" "I used python and python daily"
    "I used redis and redis daily" (some [⟨"assistant", "we used python"⟩]) 2
    (by decide) (by decide) (by decide) (by decide) (by decide)
    (by decide) (by decide) (by decide)

end SkillIssue
